import Mathlib

set_option maxRecDepth 20000
set_option maxHeartbeats 1000000

namespace RagApp

/-! Shallow embedding of `src/app.py`, a Streamlit RAG pipeline over the Ragie
retrieval service and the SambaNova chat-completion service.  Network calls are
modelled by an explicit environment of response oracles, and every outbound
call (and the post-upload sleep) is recorded in an event trace.  Python string
semantics that the source relies on (`str` applied to a list of strings inside
an f-string, `urllib.parse.urlparse(...).path`, `str.split`, truthiness of
`None` and `""`) are modelled character-by-character below. -/

/-- Single-quote character (written by code point to keep the source plain). -/
def squote : Char := Char.ofNat 39

/-- Double-quote character. -/
def dquote : Char := Char.ofNat 34

/-- Backslash character. -/
def bslash : Char := Char.ofNat 92

/-- Lower-case hex digit for a value below 16, as produced by Python `\xNN` escapes. -/
def hexDigit (n : Nat) : Char := if n < 10 then Char.ofNat (48 + n) else Char.ofNat (87 + n)

/-- Rendering of one character of a Python string inside quote `q`, following
CPython `repr`: backslash and the active quote are backslash-escaped, tab,
newline and carriage return use their two-character escapes, other characters
below 0x20 (and 0x7f) use `\xNN`; printable characters stand for themselves.
Codepoints at or above 0x80 are rendered as themselves (CPython consults the
Unicode printability table there; the development only evaluates this function
on inputs below 0x80, where the model is exact). -/
def pyCharReprAt (q c : Char) : List Char :=
  if c = bslash ∨ c = q then [bslash, c]
  else if c = Char.ofNat 9 then [bslash, 't']
  else if c = Char.ofNat 10 then [bslash, 'n']
  else if c = Char.ofNat 13 then [bslash, 'r']
  else if c.toNat < 0x20 ∨ c.toNat = 0x7f then
    [bslash, 'x', hexDigit (c.toNat / 16), hexDigit (c.toNat % 16)]
  else [c]

/-- Concatenated image of a character-rendering function over a string. -/
def pyConcatMap (f : Char → List Char) : List Char → List Char
  | [] => []
  | c :: cs => f c ++ pyConcatMap f cs

/-- Quote character CPython `repr` chooses for a string: a double quote when
the string holds a single quote but no double quote, a single quote otherwise. -/
def pyQuote (s : List Char) : Char :=
  if squote ∈ s ∧ dquote ∉ s then dquote else squote

/-- CPython `repr` of a string, as a character list. -/
def pyStrRepr (s : List Char) : List Char :=
  pyQuote s :: (pyConcatMap (pyCharReprAt (pyQuote s)) s ++ [pyQuote s])

/-- Python `sep.join(items)`. -/
def pyJoin (sep : List Char) : List (List Char) → List Char
  | [] => []
  | [x] => x
  | x :: y :: ys => x ++ sep ++ pyJoin sep (y :: ys)

/-- CPython `repr` (= `str`) of a list of strings:
`"[" + ", ".join(repr(x) for x in xs) + "]"`. -/
def pyListRepr (xs : List (List Char)) : List Char :=
  '[' :: (pyJoin [',', ' '] (xs.map pyStrRepr) ++ [']'])

/-- Characters CPython allows inside a URL scheme. -/
def schemeChar (c : Char) : Bool :=
  c.isAlpha || c.isDigit || c == '+' || c == '-' || c == '.'

/-- Whether a character list starts with an ASCII letter
(`url[0].isascii() and url[0].isalpha()` in CPython `urlsplit`). -/
def headAsciiAlpha : List Char → Bool
  | [] => false
  | c :: _ => c.isAlpha

/-- Scheme removal step of CPython `urlsplit`: when the text before the first
colon is a wellformed nonempty scheme, everything after that colon remains. -/
def afterScheme (url : List Char) : List Char :=
  match url.findIdx? (· == ':') with
  | none => url
  | some i =>
    if i != 0 && headAsciiAlpha url && (url.take i).all schemeChar then
      url.drop (i + 1)
    else url

/-- Netloc removal step of CPython `urlsplit`: after a leading `//`, the
authority extends to the first `/`, `?` or `#`. -/
def afterNetloc (url : List Char) : List Char :=
  match url with
  | '/' :: '/' :: rest => rest.dropWhile (fun c => !(c == '/' || c == '?' || c == '#'))
  | _ => url

/-- Fragment removal (`url.split('#', 1)[0]`). -/
def dropFragment (url : List Char) : List Char := url.takeWhile (· != '#')

/-- Query removal (`url.split('?', 1)[0]`). -/
def dropQuery (url : List Char) : List Char := url.takeWhile (· != '?')

/-- Index of the first occurrence of a character (length when absent). -/
def firstIdx (c : Char) : List Char → Nat
  | [] => 0
  | x :: xs => if x == c then 0 else 1 + firstIdx c xs

/-- Index of the last `/` in a character list that contains one
(`url.rfind('/')` in CPython `_splitparams`). -/
def lastSlashIdx (p : List Char) : Nat :=
  p.length - 1 - firstIdx '/' p.reverse

/-- Parameter removal of CPython `urlparse`: when the text holds a `;`, the
parameters are cut from the last path segment only. -/
def splitParams (p : List Char) : List Char :=
  if p.any (· == ';') then
    if p.any (· == '/') then
      let k := lastSlashIdx p
      if (p.drop k).any (· == ';') then p.take (k + firstIdx ';' (p.drop k)) else p
    else p.takeWhile (· != ';')
  else p

/-- `urllib.parse.urlparse(url).path` for the URL shapes the app receives. -/
def urlparsePath (url : String) : String :=
  String.mk (splitParams (dropQuery (dropFragment (afterNetloc (afterScheme url.data)))))

/-- Python `str.split` with a one-character separator: splitting the empty
string yields `[""]`, and every separator occurrence starts a new field. -/
def pySplitChar (sep : Char) : List Char → List (List Char)
  | [] => [[]]
  | c :: cs =>
    if c = sep then [] :: pySplitChar sep cs
    else
      match pySplitChar sep cs with
      | [] => [[c]]
      | s :: rest => (c :: s) :: rest

/-- `urlparse(url).path.split('/')[-1]` (Python `split` on a nonempty
separator always yields a nonempty list, so the last element exists). -/
def lastSegmentOf (url : String) : String :=
  String.mk ((pySplitChar '/' (urlparsePath url).data).getLastD [])

/-- `urlparse(url).path.split('/')[-1] or "document"`: the final path segment,
or the fallback literal when that segment is empty. -/
def pathDefaultName (url : String) : String :=
  if lastSegmentOf url = "" then "document" else lastSegmentOf url

/-- Name resolution of `upload_document`: `if not name: name = ... or "document"`.
Python `not name` is true for `None` and for the empty string. -/
def resolvedName (url : String) (name : Option String) : String :=
  match name with
  | none => pathDefaultName url
  | some n => if n = "" then pathDefaultName url else n

/-- One scored chunk of the Ragie retrieval response; the app reads only its
`text` field, the score models the other fields of the item. -/
structure ScoredChunk where
  text : String
  score : Nat
deriving DecidableEq

/-- Response of the retrieval endpoint: `ok`/`status_code`/`reason` as on a
`requests` response, and the optional `scored_chunks` field of the JSON body
(`none` models a body lacking the field, so that indexing raises `KeyError`). -/
structure RetrievalResponse where
  ok : Bool
  status_code : Nat
  reason : String
  scored_chunks : Option (List ScoredChunk)

/-- Response of the document-upload endpoint; `body` models `response.json()`. -/
structure UploadResponse where
  ok : Bool
  status_code : Nat
  reason : String
  body : String

/-- One role-tagged chat message. -/
structure ChatMessage where
  role : String
  content : String
deriving DecidableEq

/-- One completion candidate of the chat response. -/
structure ChatChoice where
  message : ChatMessage
deriving DecidableEq

/-- Chat-completion response: a list of candidates; the app reads `choices[0]`. -/
structure ChatResponse where
  choices : List ChatChoice
deriving DecidableEq

/-- Chat-completion request as built by `generate_response`. -/
structure ChatRequest where
  model : String
  messages : List ChatMessage
  temperature : Rat
  top_p : Rat
deriving DecidableEq

/-- JSON payload of the upload POST: `{"mode": mode, "name": name, "url": url}`. -/
structure UploadPayload where
  mode : String
  name : String
  url : String
deriving DecidableEq

/-- JSON payload of the retrieval POST: `{"query": query, "filters": {"scope": scope}}`. -/
structure RetrievalPayload where
  query : String
  scope : String
deriving DecidableEq

/-- Remote services, as response oracles for the three outbound calls. -/
structure Env where
  upload_post : UploadPayload → UploadResponse
  retrieval_post : RetrievalPayload → RetrievalResponse
  chat_create : ChatRequest → ChatResponse

/-- Observable effects of a pipeline run: the outbound calls and the
post-upload sleep. -/
inductive Event where
  | uploadPost (p : UploadPayload)
  | retrievalPost (p : RetrievalPayload)
  | chatCreate (r : ChatRequest)
  | sleepSecs (n : Nat)
deriving DecidableEq

/-- Failures the Python code can raise: `raise Exception(msg)`, a `KeyError`
on a missing JSON field, and an `IndexError` on `choices[0]`. -/
inductive Err where
  | exception (msg : String)
  | keyError (key : String)
  | indexError
deriving DecidableEq

/-- Pipeline state: the Ragie key as read from the environment (possibly
absent) and the caller-supplied SambaNova key. -/
structure RAGPipeline where
  ragie_api_key : Option String
  sambanova_api_key : String
deriving DecidableEq

/-- Python truthiness of an `Optional[str]`: `not x` holds for `None` and `""`. -/
def pyFalsyOptStr : Option String → Bool
  | none => true
  | some s => s == ""

/-- Message of the constructor's missing-key failure. -/
def missingKeyMsg : String := "Missing Ragie API key! Please check your .env file."

/-- `RAGPipeline.__init__`: stores both keys and fails when the Ragie key is
absent or empty.  It performs no network call (the OpenAI client construction
is local). -/
def RAGPipeline.init (ragieKeyEnv : Option String) (sambanovaKey : String) :
    Except Err RAGPipeline :=
  let p : RAGPipeline := ⟨ragieKeyEnv, sambanovaKey⟩
  if pyFalsyOptStr p.ragie_api_key then .error (.exception missingKeyMsg) else .ok p

/-- `upload_document`: builds the payload (resolving the display name), POSTs
it, fails on a non-ok response with the observed status and reason, returns
the response body otherwise. -/
def RAGPipeline.upload_document (p : RAGPipeline) (env : Env) (url : String)
    (name : Option String) (mode : String) : Except Err String × List Event :=
  let payload : UploadPayload := ⟨mode, resolvedName url name, url⟩
  let r := env.upload_post payload
  if !r.ok then
    (.error (.exception ("Document upload failed: " ++ toString r.status_code ++ " " ++ r.reason)),
      [.uploadPost payload])
  else (.ok r.body, [.uploadPost payload])

/-- `retrieve_chunks`: POSTs the query, fails on a non-ok response with the
observed status and reason, raises `KeyError` when the body lacks
`scored_chunks`, and otherwise extracts the `text` field of each item in
server order. -/
def RAGPipeline.retrieve_chunks (p : RAGPipeline) (env : Env) (query scope : String) :
    Except Err (List String) × List Event :=
  let payload : RetrievalPayload := ⟨query, scope⟩
  let r := env.retrieval_post payload
  if !r.ok then
    (.error (.exception ("Retrieval failed: " ++ toString r.status_code ++ " " ++ r.reason)),
      [.retrievalPost payload])
  else
    match r.scored_chunks with
    | none => (.error (.keyError "scored_chunks"), [.retrievalPost payload])
    | some cs => (.ok (cs.map ScoredChunk.text), [.retrievalPost payload])

/-- Text before the `{chunk_texts}` interpolation of the f-string of
`create_system_prompt`, verbatim from the source. -/
def tplBefore : String := "These are very important to follow: You are \"Ragie AI\", a professional but friendly AI chatbot working as an assistant to the user. Your current task is to help the user based on all of the information available to you shown below. Answer informally, directly, and concisely without a heading or greeting but include everything relevant. Use richtext Markdown when appropriate including bold, italic, paragraphs, and lists when helpful. If using LaTeX, use double $$ as delimiter instead of single $. Use $$...$$ instead of parentheses. Organize information into multiple sections or points when appropriate. Don't include raw item IDs or other raw fields from the source. Don't use XML or other markup unless requested by the user. Here is all of the information available to answer the user: === "

/-- Text after the `{chunk_texts}` interpolation, verbatim from the source. -/
def tplAfter : String := " === If the user asked for a search and there are no results, make sure to let the user know that you couldn't find anything, and what they might be able to do to find the information they need. END SYSTEM INSTRUCTIONS"

/-- `create_system_prompt`: the f-string interpolates the Python *list* of
chunk texts, i.e. its `repr`, between the fixed template halves. -/
def create_system_prompt (chunk_texts : List String) : String :=
  String.mk (tplBefore.data ++ (pyListRepr (chunk_texts.map String.data) ++ tplAfter.data))

/-- Model identifier sent by `generate_response`. -/
def sambanovaModel : String := "Llama-3.2-11B-Vision-Instruct"

/-- Chat request built by `generate_response`: two role-tagged messages
(system first, then user), temperature 0.1 and top_p 0.1 (modelled as the
rational 1/10), fixed model identifier. -/
def chatRequestFor (system_prompt query : String) : ChatRequest :=
  ⟨sambanovaModel, [⟨"system", system_prompt⟩, ⟨"user", query⟩], 1/10, 1/10⟩

/-- `generate_response`: one chat-completion call; returns
`response.choices[0].message.content`, raising `IndexError` when there is no
candidate. -/
def RAGPipeline.generate_response (p : RAGPipeline) (env : Env)
    (system_prompt query : String) : Except Err String × List Event :=
  let req := chatRequestFor system_prompt query
  let resp := env.chat_create req
  match resp.choices with
  | [] => (.error .indexError, [.chatCreate req])
  | c :: _ => (.ok c.message.content, [.chatCreate req])

/-- Sentinel answer returned on an empty retrieval result. -/
def sentinelAnswer : String := "No relevant information found for your query."

/-- Default retrieval scope (`scope: str = "tutorial"`). -/
def defaultScope : String := "tutorial"

/-- `process_query`: retrieve, short-circuit to the sentinel on an empty chunk
list (Python `if not chunks`), otherwise build the prompt and generate. -/
def RAGPipeline.process_query (p : RAGPipeline) (env : Env) (query scope : String) :
    Except Err String × List Event :=
  match p.retrieve_chunks env query scope with
  | (.error e, ev) => (.error e, ev)
  | (.ok chunks, ev) =>
    if chunks.isEmpty then (.ok sentinelAnswer, ev)
    else
      match p.generate_response env (create_system_prompt chunks) query with
      | (res, ev2) => (res, ev ++ ev2)

/-- Name argument `main` passes to `upload_document`:
`doc_name if doc_name else None`. -/
def mainUploadName (doc_name : String) : Option String :=
  if doc_name == "" then none else some doc_name

/-- Upload flow of `main` (lines 167-179): `doc_name if doc_name else None` as
the name, then `upload_document` followed by `time.sleep(5)` inside the same
`try`, so the sleep is skipped when the upload raises. -/
def mainUploadFlow (p : RAGPipeline) (env : Env) (doc_url doc_name upload_mode : String) :
    Except Err Unit × List Event :=
  match p.upload_document env doc_url (mainUploadName doc_name) upload_mode with
  | (.ok _, ev) => (.ok (), ev ++ [.sleepSecs 5])
  | (.error e, ev) => (.error e, ev)

/-- Persona declaration clause of the prompt template. -/
def personaClause : String := "You are \"Ragie AI\", a professional but friendly AI chatbot working as an assistant to the user."

/-- No-XML rule clause of the prompt template. -/
def noXmlClause : String := "Don't use XML or other markup unless requested by the user."

/-- Empty-result instruction clause of the prompt template. -/
def emptyResultClause : String := "If the user asked for a search and there are no results, make sure to let the user know that you couldn't find anything, and what they might be able to do to find the information they need."

/-- The three fixed policy clauses named by the specification. -/
def policyClauses : List String := [personaClause, noXmlClause, emptyResultClause]

/-! Occurrence counting.  `countOcc n h` is the number of start positions at
which `n` occurs in `h` (one position per suffix of `h` of which `n` is a
prefix).  "Contains exactly once" is `countOcc n h = 1`. -/

/-- Number of occurrences of `n` in `h`, counted by start position. -/
def countOcc (n : List Char) : List Char → Nat
  | [] => if n = [] then 1 else 0
  | c :: t => (if n <+: (c :: t) then 1 else 0) + countOcc n t

/-- The chunk texts appear verbatim, in order, inside a character list:
`ChunksInOrder [t1, ..., tk] h` holds when `h = a0 ++ t1 ++ a1 ++ ... ++ tk ++ ak`. -/
inductive ChunksInOrder : List (List Char) → List Char → Prop where
  | nil (h : List Char) : ChunksInOrder [] h
  | cons (t : List Char) (ts : List (List Char)) (a b : List Char)
      (hrest : ChunksInOrder ts b) : ChunksInOrder (t :: ts) (a ++ (t ++ b))

/-- Characters whose Python `repr` rendering is themselves and which are not a
single quote: printable ASCII other than backslash and single quote. -/
def cleanChar (c : Char) : Prop :=
  0x20 ≤ c.toNat ∧ c.toNat ≤ 0x7e ∧ c ≠ bslash ∧ c ≠ squote

instance (c : Char) : Decidable (cleanChar c) := by unfold cleanChar; infer_instance

/-- Separator appearing between two clean chunk texts inside the list `repr`:
quote, comma, space, quote. -/
def sepQ : List Char := [squote, ',', ' ', squote]

theorem countOcc_nil_of_ne (n : List Char) (hne : n ≠ []) : countOcc n [] = 0 := by
  simp [countOcc, hne]

theorem not_prefix_cons_of_head_ne {n : List Char} {c : Char} {t : List Char}
    (hne : n ≠ []) (hh : n.head? ≠ some c) : ¬ n <+: (c :: t) := by
  cases n with
  | nil => exact absurd rfl hne
  | cons a n' =>
    intro hp
    exact hh (by rw [(List.cons_prefix_cons.mp hp).1]; rfl)

theorem countOcc_cons_of_head_ne {n : List Char} {c : Char} {t : List Char}
    (hne : n ≠ []) (hh : n.head? ≠ some c) : countOcc n (c :: t) = countOcc n t := by
  simp [countOcc, not_prefix_cons_of_head_ne hne hh]

/-- Occurrence counting distributes over an append when no occurrence can
straddle the boundary. -/
theorem countOcc_append (n x y : List Char) (hne : n ≠ [])
    (hstr : ∀ k, 0 < k → k < n.length → ¬ ((n.take k) <:+ x ∧ (n.drop k) <+: y)) :
    countOcc n (x ++ y) = countOcc n x + countOcc n y := by
  induction x with
  | nil => simp [countOcc_nil_of_ne n hne]
  | cons c x' ih =>
    have hstr' : ∀ k, 0 < k → k < n.length → ¬ ((n.take k) <:+ x' ∧ (n.drop k) <+: y) := by
      intro k hk hk2 hand
      exact hstr k hk hk2 ⟨hand.1.trans (List.suffix_cons c x'), hand.2⟩
    have hiff : (n <+: c :: (x' ++ y)) ↔ (n <+: c :: x') := by
      constructor
      · intro hp
        have hp' : n <+: (c :: x') ++ y := by simpa using hp
        rcases List.prefix_or_prefix_of_prefix hp' (List.prefix_append (c :: x') y) with h1 | h2
        · exact h1
        · by_cases hlen : n.length ≤ (c :: x').length
          · have heq : c :: x' = n := h2.eq_of_length (le_antisymm h2.length_le hlen)
            rw [← heq]
          · push_neg at hlen
            have hk1 : 0 < (c :: x').length := by simp
            have htake : n.take (c :: x').length = c :: x' :=
              (List.prefix_iff_eq_take.mp h2).symm
            have hdrop : n.drop (c :: x').length <+: y := by
              have hn : n = (c :: x') ++ n.drop (c :: x').length := by
                conv_lhs => rw [← List.take_append_drop (c :: x').length n]
                rw [htake]
              rw [hn] at hp'
              exact (List.prefix_append_right_inj (c :: x')).mp hp'
            exact absurd ⟨by rw [htake], hdrop⟩ (hstr (c :: x').length hk1 hlen)
      · intro hp
        have := hp.trans (List.prefix_append (c :: x') y)
        simpa using this
    show (if n <+: c :: (x' ++ y) then 1 else 0) + countOcc n (x' ++ y) =
      ((if n <+: c :: x' then 1 else 0) + countOcc n x') + countOcc n y
    rw [ih hstr']
    by_cases hp : n <+: c :: x'
    · rw [if_pos (hiff.mpr hp), if_pos hp]
      omega
    · rw [if_neg (fun h => hp (hiff.mp h)), if_neg hp]
      omega

theorem countOcc_pos_of_infix {n h : List Char} (hne : n ≠ []) (hinf : n <:+: h) :
    0 < countOcc n h := by
  obtain ⟨s, t, rfl⟩ := hinf
  induction s with
  | nil =>
    cases n with
    | nil => exact absurd rfl hne
    | cons a n' =>
      have : (a :: n') <+: a :: (n' ++ t) := by
        simpa using List.prefix_append (a :: n') t
      simp only [List.nil_append, List.cons_append, countOcc]
      rw [if_pos (by simpa using this)]
      omega
  | cons c s' ih =>
    have hstep : countOcc n (c :: s' ++ n ++ t) =
        (if n <+: (c :: (s' ++ n ++ t)) then 1 else 0) + countOcc n (s' ++ n ++ t) := rfl
    rw [hstep]
    omega

theorem prefix_pair {l : List Char} {a b : Char} (h : l <+: [a, b]) :
    l = [] ∨ l = [a] ∨ l = [a, b] := by
  cases l with
  | nil => exact Or.inl rfl
  | cons x l' =>
    obtain ⟨hx, h'⟩ := List.cons_prefix_cons.mp h
    cases l' with
    | nil => exact Or.inr (Or.inl (by rw [hx]))
    | cons y l'' =>
      obtain ⟨hy, h''⟩ := List.cons_prefix_cons.mp h'
      have : l'' = [] := List.prefix_nil.mp h''
      exact Or.inr (Or.inr (by rw [hx, hy, this]))

theorem getLast?_of_suffix {s n : List Char} (h : s <:+ n) (hs : s ≠ []) :
    n.getLast? = s.getLast? := by
  obtain ⟨u, rfl⟩ := h
  exact List.getLast?_append_of_ne_nil u hs

theorem mem_of_getLast?_eq_some {l : List Char} {c : Char} (h : l.getLast? = some c) :
    c ∈ l := by
  induction l with
  | nil => simp at h
  | cons a l ih =>
    cases l with
    | nil => simp at h; simp [h]
    | cons b l' =>
      rw [List.getLast?_cons_cons] at h
      exact List.mem_cons_of_mem a (ih h)

theorem head?_ne_of_not_mem {n : List Char} {c : Char} (h : c ∉ n) : n.head? ≠ some c :=
  fun hh => h (List.mem_of_mem_head? (by rw [hh]; simp))

theorem drop_ne_nil_of_lt {n : List Char} {k : Nat} (h : k < n.length) : n.drop k ≠ [] := by
  intro hd
  have := List.drop_eq_nil_iff_le.mp hd
  omega

theorem take_ne_nil_of_pos {n : List Char} {k : Nat} (hk : 0 < k) (hn : n ≠ []) :
    n.take k ≠ [] := by
  cases n with
  | nil => exact absurd rfl hn
  | cons a n' =>
    cases k with
    | zero => omega
    | succ k' => simp

/-- No occurrence of a needle satisfying the concrete side conditions lies in
the interior `'t1', 't2', ...` part of the list `repr` of clean chunk texts. -/
theorem countOcc_join_zero (n : List Char) (hne : n ≠ [])
    (hq : n.head? ≠ some squote) (hcm : n.head? ≠ some ',') (hsp : n.head? ≠ some ' ')
    (hsepPre : ∀ k, k < n.length → ¬ ((n.drop k) <+: sepQ))
    (hsepInf : ¬ sepQ <:+: n) :
    ∀ ts : List (List Char), (∀ t ∈ ts, countOcc n t = 0) →
      countOcc n (pyJoin sepQ ts) = 0 := by
  intro ts
  induction ts with
  | nil => intro _; simpa [pyJoin] using countOcc_nil_of_ne n hne
  | cons t ts ih =>
    intro hts
    cases ts with
    | nil => simpa [pyJoin] using hts t (by simp)
    | cons t' ts' =>
      have hjoin : pyJoin sepQ (t :: t' :: ts') = t ++ (sepQ ++ pyJoin sepQ (t' :: ts')) := by
        simp [pyJoin, List.append_assoc]
      rw [hjoin]
      have happ := countOcc_append n t (sepQ ++ pyJoin sepQ (t' :: ts')) hne (by
        intro k hk hk2 hand
        rcases List.prefix_or_prefix_of_prefix hand.2
            (List.prefix_append sepQ (pyJoin sepQ (t' :: ts'))) with hpre | hpre
        · exact hsepPre k hk2 hpre
        · exact hsepInf (hpre.isInfix.trans (List.drop_suffix k n).isInfix))
      rw [happ, hts t (by simp)]
      have hpeel : countOcc n (sepQ ++ pyJoin sepQ (t' :: ts')) =
          countOcc n (pyJoin sepQ (t' :: ts')) := by
        show countOcc n (squote :: ',' :: ' ' :: squote :: pyJoin sepQ (t' :: ts')) = _
        rw [countOcc_cons_of_head_ne hne hq, countOcc_cons_of_head_ne hne hcm,
          countOcc_cons_of_head_ne hne hsp, countOcc_cons_of_head_ne hne hq]
      rw [hpeel, ih (fun u hu => hts u (by simp [hu]))]

theorem pyCharReprAt_squote_clean {c : Char} (hc : cleanChar c) :
    pyCharReprAt squote c = [c] := by
  obtain ⟨h1, h2, h3, h4⟩ := hc
  unfold pyCharReprAt
  rw [if_neg (fun hor => hor.elim h3 h4)]
  rw [if_neg (by intro h; rw [h] at h1; exact absurd h1 (by decide))]
  rw [if_neg (by intro h; rw [h] at h1; exact absurd h1 (by decide))]
  rw [if_neg (by intro h; rw [h] at h1; exact absurd h1 (by decide))]
  rw [if_neg (by omega)]

theorem pyConcatMap_clean {t : List Char} (h : ∀ c ∈ t, cleanChar c) :
    pyConcatMap (pyCharReprAt squote) t = t := by
  induction t with
  | nil => rfl
  | cons c t ih =>
    show pyCharReprAt squote c ++ pyConcatMap (pyCharReprAt squote) t = c :: t
    rw [pyCharReprAt_squote_clean (h c (by simp)), ih (fun d hd => h d (by simp [hd]))]
    rfl

theorem pyQuote_clean {t : List Char} (h : ∀ c ∈ t, cleanChar c) : pyQuote t = squote := by
  unfold pyQuote
  rw [if_neg]
  rintro ⟨hmem, -⟩
  exact (h squote hmem).2.2.2 rfl

theorem pyStrRepr_clean {t : List Char} (h : ∀ c ∈ t, cleanChar c) :
    pyStrRepr t = squote :: (t ++ [squote]) := by
  unfold pyStrRepr
  rw [pyQuote_clean h, pyConcatMap_clean h]

theorem pyJoin_quoted (ts : List (List Char)) (hne : ts ≠ [])
    (h : ∀ t ∈ ts, ∀ c ∈ t, cleanChar c) :
    pyJoin [',', ' '] (ts.map pyStrRepr) = squote :: (pyJoin sepQ ts ++ [squote]) := by
  induction ts with
  | nil => exact absurd rfl hne
  | cons t ts ih =>
    cases ts with
    | nil =>
      show pyJoin [',', ' '] [pyStrRepr t] = _
      rw [show pyJoin [',', ' '] [pyStrRepr t] = pyStrRepr t from rfl,
        pyStrRepr_clean (h t (by simp))]
      rfl
    | cons t' ts' =>
      have ih' := ih (by simp) (fun u hu c hc => h u (by simp [hu]) c hc)
      show pyStrRepr t ++ [',', ' '] ++ pyJoin [',', ' '] ((t' :: ts').map pyStrRepr) = _
      rw [ih', pyStrRepr_clean (h t (by simp))]
      show _ = squote :: (pyJoin sepQ (t :: t' :: ts') ++ [squote])
      rw [show pyJoin sepQ (t :: t' :: ts') = t ++ sepQ ++ pyJoin sepQ (t' :: ts') from rfl]
      simp [sepQ, List.append_assoc]


theorem pyListRepr_clean (ts : List (List Char)) (hne : ts ≠ [])
    (h : ∀ t ∈ ts, ∀ c ∈ t, cleanChar c) :
    pyListRepr ts = '[' :: squote :: (pyJoin sepQ ts ++ [squote, ']']) := by
  unfold pyListRepr
  rw [pyJoin_quoted ts hne h]
  simp [List.append_assoc]

/-- Occurrences of a needle satisfying the concrete side conditions in the
assembled prompt are exactly its occurrences in the two template halves. -/
theorem countOcc_prompt (n : List Char) (ts : List (List Char)) (htsne : ts ≠ [])
    (hclean : ∀ t ∈ ts, ∀ c ∈ t, cleanChar c)
    (hne : n ≠ []) (hlb : '[' ∉ n) (hrb : ']' ∉ n)
    (hq : n.head? ≠ some squote) (hcm : n.head? ≠ some ',') (hsp : n.head? ≠ some ' ')
    (hlast : n.getLast? ≠ some squote)
    (hsepPre : ∀ k, k < n.length → ¬ ((n.drop k) <+: sepQ))
    (hsepInf : ¬ sepQ <:+: n)
    (hts : ∀ t ∈ ts, countOcc n t = 0) :
    countOcc n (tplBefore.data ++ (pyListRepr ts ++ tplAfter.data)) =
      countOcc n tplBefore.data + countOcc n tplAfter.data := by
  rw [pyListRepr_clean ts htsne hclean]
  have h1 := countOcc_append n tplBefore.data
      (('[' :: squote :: (pyJoin sepQ ts ++ [squote, ']'])) ++ tplAfter.data) hne (by
    intro k hk hk2 hand
    have hd := hand.2
    have hdne : n.drop k ≠ [] := drop_ne_nil_of_lt hk2
    cases hdn : n.drop k with
    | nil => exact hdne hdn
    | cons c rest =>
      rw [hdn] at hd
      have : c = '[' := (List.cons_prefix_cons.mp hd).1
      apply hlb
      have : '[' ∈ n.drop k := by rw [hdn, this]; simp
      exact List.drop_subset k n this)
  rw [h1]
  have hM'last : ('[' :: squote :: (pyJoin sepQ ts ++ [squote, ']'])).getLast? = some ']' := by
    rw [show '[' :: squote :: (pyJoin sepQ ts ++ [squote, ']']) =
        ('[' :: squote :: pyJoin sepQ ts) ++ [squote, ']'] by simp,
      List.getLast?_append_of_ne_nil _ (by simp)]
    rfl
  have h2 := countOcc_append n ('[' :: squote :: (pyJoin sepQ ts ++ [squote, ']']))
      tplAfter.data hne (by
    intro k hk hk2 hand
    have htne : n.take k ≠ [] := take_ne_nil_of_pos hk hne
    have hgl := getLast?_of_suffix hand.1 htne
    rw [hM'last] at hgl
    exact hrb (List.take_subset k n (mem_of_getLast?_eq_some hgl.symm)))
  rw [h2]
  have h3 : countOcc n ('[' :: squote :: (pyJoin sepQ ts ++ [squote, ']'])) = 0 := by
    rw [countOcc_cons_of_head_ne hne (head?_ne_of_not_mem hlb),
      countOcc_cons_of_head_ne hne hq]
    have h4 := countOcc_append n (pyJoin sepQ ts) [squote, ']'] hne (by
      intro k hk hk2 hand
      rcases prefix_pair hand.2 with h0 | h0 | h0
      · exact absurd h0 (drop_ne_nil_of_lt hk2)
      · have hsuf : n.getLast? = (n.drop k).getLast? :=
          getLast?_of_suffix (List.drop_suffix k n) (by rw [h0]; simp)
        rw [h0] at hsuf
        exact hlast (hsuf.trans rfl)
      · exact hrb (List.drop_subset k n (by rw [h0]; simp)))
    rw [h4, countOcc_join_zero n hne hq hcm hsp hsepPre hsepInf ts hts]
    rw [show ([squote, ']'] : List Char) = squote :: [']'] from rfl,
      countOcc_cons_of_head_ne hne hq,
      countOcc_cons_of_head_ne hne (head?_ne_of_not_mem hrb),
      countOcc_nil_of_ne n hne]
  rw [h3]
  omega

/-- Chunk texts appear in order around the separators of their join, whatever
surrounds the join. -/
theorem chunksInOrder_join (ts : List (List Char)) :
    ∀ u v : List Char, ChunksInOrder ts (u ++ (pyJoin sepQ ts ++ v)) := by
  induction ts with
  | nil => intro u v; exact .nil _
  | cons t ts ih =>
    intro u v
    cases ts with
    | nil =>
      rw [show pyJoin sepQ [t] = t from rfl]
      exact .cons t [] u v (.nil v)
    | cons t' ts' =>
      rw [show pyJoin sepQ (t :: t' :: ts') = t ++ sepQ ++ pyJoin sepQ (t' :: ts') from rfl]
      have h2 := ih sepQ v
      have h3 := ChunksInOrder.cons t (t' :: ts') u
        (sepQ ++ (pyJoin sepQ (t' :: ts') ++ v)) h2
      simpa [List.append_assoc] using h3

theorem chunksInOrder_single {t h : List Char} (hc : ChunksInOrder [t] h) :
    ∃ a b, h = a ++ (t ++ b) := by
  cases hc with
  | cons t ts a b hrest => exact ⟨a, b, rfl⟩

/-- C1, counterexample: for the single chunk text `"\n"` the prompt does not
contain the chunk text verbatim — the f-string renders the list `repr`, which
escapes the newline as a backslash-n — so the claimed property fails at this
input. -/
theorem C1_counterexample :
    ¬ (ChunksInOrder (["\n"].map String.data) (create_system_prompt ["\n"]).data ∧
       ∀ p ∈ policyClauses, countOcc p.data (create_system_prompt ["\n"]).data = 1) := by
  rintro ⟨h1, -⟩
  have e : (["\n"].map String.data) = [[Char.ofNat 10]] := by decide
  rw [e] at h1
  obtain ⟨a, b, hab⟩ := chunksInOrder_single h1
  have hmem : Char.ofNat 10 ∈ (create_system_prompt ["\n"]).data := by
    rw [hab]; simp
  exact absurd hmem (by decide)

/-- C1 (amended): for every non-empty sequence of chunk texts all of whose
characters are printable ASCII other than backslash and single quote, and
none of which contains a policy clause, the string returned by
`create_system_prompt` contains every input chunk's text verbatim in received
order, and contains each fixed policy clause (persona declaration, no-XML
rule, empty-result instruction) exactly once.  (In general the prompt embeds
the Python list `repr` of the chunk texts, under which characters that `repr`
escapes — newline, tab, backslash, mixed quotes — do not appear verbatim.) -/
theorem C1_prompt_contains_chunks_and_clauses (ts : List String) (hne : ts ≠ [])
    (hclean : ∀ t ∈ ts, ∀ c ∈ t.data, cleanChar c)
    (hfree : ∀ t ∈ ts, ∀ p ∈ policyClauses, countOcc p.data t.data = 0) :
    ChunksInOrder (ts.map String.data) (create_system_prompt ts).data ∧
      ∀ p ∈ policyClauses, countOcc p.data (create_system_prompt ts).data = 1 := by
  have hmapne : ts.map String.data ≠ [] := by
    cases ts with
    | nil => exact absurd rfl hne
    | cons a l => simp
  have hcl' : ∀ t ∈ ts.map String.data, ∀ c ∈ t, cleanChar c := by
    intro t ht c hc
    rcases List.mem_map.mp ht with ⟨s, hs, rfl⟩
    exact hclean s hs c hc
  have hdata : (create_system_prompt ts).data =
      tplBefore.data ++ (pyListRepr (ts.map String.data) ++ tplAfter.data) := rfl
  constructor
  · rw [hdata, pyListRepr_clean _ hmapne hcl']
    have h3 := chunksInOrder_join (ts.map String.data)
      (tplBefore.data ++ ['[', squote]) ([squote, ']'] ++ tplAfter.data)
    simpa [List.append_assoc] using h3
  · intro p hp
    have hts' : ∀ t ∈ ts.map String.data, countOcc p.data t = 0 := by
      intro t ht
      rcases List.mem_map.mp ht with ⟨s, hs, rfl⟩
      exact hfree s hs p hp
    have key : ∀ n : List Char, n ≠ [] → '[' ∉ n → ']' ∉ n →
        n.head? ≠ some squote → n.head? ≠ some ',' → n.head? ≠ some ' ' →
        n.getLast? ≠ some squote →
        (∀ k, k < n.length → ¬ ((n.drop k) <+: sepQ)) → ¬ sepQ <:+: n →
        (∀ t ∈ ts.map String.data, countOcc n t = 0) →
        countOcc n ((create_system_prompt ts).data) =
          countOcc n tplBefore.data + countOcc n tplAfter.data := by
      intro n h1 h2 h3 h4 h5 h6 h7 h8 h9 h10
      rw [hdata]
      exact countOcc_prompt n (ts.map String.data) hmapne hcl' h1 h2 h3 h4 h5 h6 h7 h8 h9 h10
    simp only [policyClauses, List.mem_cons, List.mem_singleton, List.not_mem_nil,
      or_false] at hp
    rcases hp with rfl | rfl | rfl
    · rw [key personaClause.data (by decide) (by decide) (by decide) (by decide) (by decide)
        (by decide) (by decide) (by decide) (by decide) hts']
      decide
    · rw [key noXmlClause.data (by decide) (by decide) (by decide) (by decide) (by decide)
        (by decide) (by decide) (by decide) (by decide) hts']
      decide
    · rw [key emptyResultClause.data (by decide) (by decide) (by decide) (by decide) (by decide)
        (by decide) (by decide) (by decide) (by decide) hts']
      decide

/-- C1, witness: the amended theorem applied to the two-chunk example of the
specification's end-to-end scenario B. -/
theorem C1_witness :
    ChunksInOrder ((["Paris is the capital of France.",
        "It has a population of 2.1 million."]).map String.data)
      (create_system_prompt ["Paris is the capital of France.",
        "It has a population of 2.1 million."]).data ∧
    ∀ p ∈ policyClauses,
      countOcc p.data (create_system_prompt ["Paris is the capital of France.",
        "It has a population of 2.1 million."]).data = 1 :=
  C1_prompt_contains_chunks_and_clauses
    ["Paris is the capital of France.", "It has a population of 2.1 million."]
    (by decide) (by decide) (by decide)

/-- C2: when the retrieval endpoint answers successfully with an empty chunk
list, `process_query` returns exactly the fixed sentinel string and the
generation call is never invoked. -/
theorem C2_empty_retrieval_short_circuit (p : RAGPipeline) (env : Env) (query scope : String)
    (hok : (env.retrieval_post ⟨query, scope⟩).ok = true)
    (hsc : (env.retrieval_post ⟨query, scope⟩).scored_chunks = some []) :
    p.process_query env query scope = (.ok sentinelAnswer, [.retrievalPost ⟨query, scope⟩]) ∧
      ∀ r, Event.chatCreate r ∉ (p.process_query env query scope).2 := by
  have h : p.process_query env query scope =
      (.ok sentinelAnswer, [.retrievalPost ⟨query, scope⟩]) := by
    simp [RAGPipeline.process_query, RAGPipeline.retrieve_chunks, hok, hsc]
  refine ⟨h, ?_⟩
  rw [h]
  intro r
  simp

/-- Environment used by the C2 witness: retrieval succeeds with no chunks. -/
def envC2 : Env :=
  ⟨fun _ => ⟨true, 200, "OK", "{}"⟩, fun _ => ⟨true, 200, "OK", some []⟩, fun _ => ⟨[]⟩⟩

/-- C2, witness: the empty-retrieval short circuit on a concrete environment. -/
theorem C2_witness :
    (⟨some "rk", "sk"⟩ : RAGPipeline).process_query envC2 "q" "tutorial" =
      (.ok sentinelAnswer, [.retrievalPost ⟨"q", "tutorial"⟩]) ∧
    ∀ r, Event.chatCreate r ∉
      ((⟨some "rk", "sk"⟩ : RAGPipeline).process_query envC2 "q" "tutorial").2 :=
  C2_empty_retrieval_short_circuit ⟨some "rk", "sk"⟩ envC2 "q" "tutorial" rfl rfl

/-- C3: a non-success retrieval response makes `process_query` fail with the
retrieval error carrying the observed status and reason, and the generation
call is never attempted. -/
theorem C3_retrieval_failure_aborts (p : RAGPipeline) (env : Env) (query scope : String)
    (hbad : (env.retrieval_post ⟨query, scope⟩).ok = false) :
    p.process_query env query scope =
      (.error (.exception ("Retrieval failed: " ++
          toString (env.retrieval_post ⟨query, scope⟩).status_code ++ " " ++
          (env.retrieval_post ⟨query, scope⟩).reason)),
        [.retrievalPost ⟨query, scope⟩]) ∧
      ∀ r, Event.chatCreate r ∉ (p.process_query env query scope).2 := by
  have h : p.process_query env query scope =
      (.error (.exception ("Retrieval failed: " ++
          toString (env.retrieval_post ⟨query, scope⟩).status_code ++ " " ++
          (env.retrieval_post ⟨query, scope⟩).reason)),
        [.retrievalPost ⟨query, scope⟩]) := by
    simp [RAGPipeline.process_query, RAGPipeline.retrieve_chunks, hbad]
  refine ⟨h, ?_⟩
  rw [h]
  intro r
  simp

/-- Environment used by the C3 witness: retrieval answers 503. -/
def envC3 : Env :=
  ⟨fun _ => ⟨true, 200, "OK", "{}"⟩, fun _ => ⟨false, 503, "Service Unavailable", none⟩,
    fun _ => ⟨[]⟩⟩

/-- C3, witness: the retrieval failure path on a concrete environment. -/
theorem C3_witness :
    (⟨some "rk", "sk"⟩ : RAGPipeline).process_query envC3 "q" "tutorial" =
      (.error (.exception ("Retrieval failed: " ++
          toString (envC3.retrieval_post ⟨"q", "tutorial"⟩).status_code ++ " " ++
          (envC3.retrieval_post ⟨"q", "tutorial"⟩).reason)),
        [.retrievalPost ⟨"q", "tutorial"⟩]) ∧
    ∀ r, Event.chatCreate r ∉
      ((⟨some "rk", "sk"⟩ : RAGPipeline).process_query envC3 "q" "tutorial").2 :=
  C3_retrieval_failure_aborts ⟨some "rk", "sk"⟩ envC3 "q" "tutorial" rfl

/-- C4: with the name omitted, the display name sent in the indexing payload
is the final path segment of the source URL, or the fixed fallback literal
"document" when that segment is empty, and never the empty string; the two
example URLs of the specification evaluate accordingly. -/
theorem C4_default_display_name :
    (∀ url : String, resolvedName url none =
        (if lastSegmentOf url = "" then "document" else lastSegmentOf url) ∧
      resolvedName url none ≠ "") ∧
    resolvedName "https://docs.example.com/guide.pdf" none = "guide.pdf" ∧
    resolvedName "https://example.com/" none = "document" ∧
    (∀ (p : RAGPipeline) (env : Env) (url mode : String),
      (p.upload_document env url none mode).2 =
        [.uploadPost ⟨mode, resolvedName url none, url⟩]) := by
  refine ⟨?_, by decide, by decide, ?_⟩
  · intro url
    by_cases hseg : lastSegmentOf url = "" <;>
      simp [resolvedName, pathDefaultName, hseg]
  · intro p env url mode
    unfold RAGPipeline.upload_document
    by_cases h : (env.upload_post ⟨mode, resolvedName url none, url⟩).ok <;> simp [h]

/-- C5: a non-success indexing response makes the upload flow fail with the
ingestion error carrying the observed status and reason phrase; exactly one
submission is posted (no retry), and the post-ingest grace sleep does not
happen on the failure path. -/
theorem C5_upload_failure_no_sleep (p : RAGPipeline) (env : Env)
    (doc_url doc_name upload_mode : String)
    (hbad : (env.upload_post ⟨upload_mode,
        resolvedName doc_url (mainUploadName doc_name), doc_url⟩).ok = false) :
    mainUploadFlow p env doc_url doc_name upload_mode =
      (.error (.exception ("Document upload failed: " ++
          toString (env.upload_post ⟨upload_mode,
            resolvedName doc_url (mainUploadName doc_name), doc_url⟩).status_code ++ " " ++
          (env.upload_post ⟨upload_mode,
            resolvedName doc_url (mainUploadName doc_name), doc_url⟩).reason)),
        [.uploadPost ⟨upload_mode,
          resolvedName doc_url (mainUploadName doc_name), doc_url⟩]) ∧
    (∀ m, Event.sleepSecs m ∉ (mainUploadFlow p env doc_url doc_name upload_mode).2) ∧
    (mainUploadFlow p env doc_url doc_name upload_mode).2.countP
        (fun e => match e with | .uploadPost _ => true | _ => false) = 1 := by
  have h : mainUploadFlow p env doc_url doc_name upload_mode =
      (.error (.exception ("Document upload failed: " ++
          toString (env.upload_post ⟨upload_mode,
            resolvedName doc_url (mainUploadName doc_name), doc_url⟩).status_code ++ " " ++
          (env.upload_post ⟨upload_mode,
            resolvedName doc_url (mainUploadName doc_name), doc_url⟩).reason)),
        [.uploadPost ⟨upload_mode,
          resolvedName doc_url (mainUploadName doc_name), doc_url⟩]) := by
    simp [mainUploadFlow, RAGPipeline.upload_document, hbad]
  refine ⟨h, ?_, ?_⟩
  · rw [h]; intro m; simp
  · rw [h]; rfl

/-- Environment used by the C5 witness: the indexing endpoint answers 500. -/
def envC5 : Env :=
  ⟨fun _ => ⟨false, 500, "Internal Server Error", "{}"⟩,
    fun _ => ⟨true, 200, "OK", some []⟩, fun _ => ⟨[]⟩⟩

/-- C5, witness: the upload failure path on a concrete environment. -/
theorem C5_witness :
    mainUploadFlow ⟨some "rk", "sk"⟩ envC5 "https://docs.example.com/guide.pdf" "" "fast" =
      (.error (.exception ("Document upload failed: " ++
          toString (envC5.upload_post ⟨"fast",
            resolvedName "https://docs.example.com/guide.pdf" (mainUploadName ""),
            "https://docs.example.com/guide.pdf"⟩).status_code ++ " " ++
          (envC5.upload_post ⟨"fast",
            resolvedName "https://docs.example.com/guide.pdf" (mainUploadName ""),
            "https://docs.example.com/guide.pdf"⟩).reason)),
        [.uploadPost ⟨"fast",
          resolvedName "https://docs.example.com/guide.pdf" (mainUploadName ""),
          "https://docs.example.com/guide.pdf"⟩]) ∧
    (∀ m, Event.sleepSecs m ∉
      (mainUploadFlow ⟨some "rk", "sk"⟩ envC5 "https://docs.example.com/guide.pdf" "" "fast").2) ∧
    (mainUploadFlow ⟨some "rk", "sk"⟩ envC5 "https://docs.example.com/guide.pdf" "" "fast").2.countP
        (fun e => match e with | .uploadPost _ => true | _ => false) = 1 :=
  C5_upload_failure_no_sleep ⟨some "rk", "sk"⟩ envC5
    "https://docs.example.com/guide.pdf" "" "fast" rfl

/-- C6: the generation call sends exactly two role-tagged messages (system
first, then user), temperature 0.1, top_p 0.1 and the fixed model identifier,
and returns the first completion candidate's text; `process_query` returns
that text verbatim. -/
theorem C6_generation_request_and_verbatim_answer (p : RAGPipeline) (env : Env)
    (query scope : String) (cs : List ScoredChunk) (c : ChatChoice) (cr : List ChatChoice)
    (hok : (env.retrieval_post ⟨query, scope⟩).ok = true)
    (hsc : (env.retrieval_post ⟨query, scope⟩).scored_chunks = some cs)
    (hne : cs ≠ [])
    (hch : (env.chat_create (chatRequestFor
        (create_system_prompt (cs.map ScoredChunk.text)) query)).choices = c :: cr) :
    (chatRequestFor (create_system_prompt (cs.map ScoredChunk.text)) query).messages =
        [⟨"system", create_system_prompt (cs.map ScoredChunk.text)⟩, ⟨"user", query⟩] ∧
    (chatRequestFor (create_system_prompt (cs.map ScoredChunk.text)) query).temperature = 1/10 ∧
    (chatRequestFor (create_system_prompt (cs.map ScoredChunk.text)) query).top_p = 1/10 ∧
    (chatRequestFor (create_system_prompt (cs.map ScoredChunk.text)) query).model =
        "Llama-3.2-11B-Vision-Instruct" ∧
    p.generate_response env (create_system_prompt (cs.map ScoredChunk.text)) query =
      (.ok c.message.content,
        [.chatCreate (chatRequestFor (create_system_prompt (cs.map ScoredChunk.text)) query)]) ∧
    p.process_query env query scope =
      (.ok c.message.content,
        [.retrievalPost ⟨query, scope⟩,
         .chatCreate (chatRequestFor (create_system_prompt (cs.map ScoredChunk.text)) query)]) := by
  have hemp : (cs.map ScoredChunk.text).isEmpty = false := by
    cases cs with
    | nil => exact absurd rfl hne
    | cons a l => rfl
  have hgen : p.generate_response env (create_system_prompt (cs.map ScoredChunk.text)) query =
      (.ok c.message.content,
        [.chatCreate (chatRequestFor (create_system_prompt (cs.map ScoredChunk.text)) query)]) := by
    simp [RAGPipeline.generate_response, hch]
  refine ⟨rfl, rfl, rfl, rfl, hgen, ?_⟩
  simp [RAGPipeline.process_query, RAGPipeline.retrieve_chunks, hok, hsc, hemp, hgen]

/-- Environment used by the C6 witness: one retrieved chunk, one completion
candidate. -/
def envC6 : Env :=
  ⟨fun _ => ⟨true, 200, "OK", "{}"⟩,
    fun _ => ⟨true, 200, "OK", some [⟨"Paris is the capital of France.", 9⟩]⟩,
    fun _ => ⟨[⟨⟨"assistant", "The capital of France is Paris."⟩⟩]⟩⟩

/-- C6, witness: the generation contract on a concrete environment. -/
theorem C6_witness :
    (chatRequestFor (create_system_prompt
        ([(⟨"Paris is the capital of France.", 9⟩ : ScoredChunk)].map ScoredChunk.text))
        "What is the capital of France?").messages =
      [⟨"system", create_system_prompt
          ([(⟨"Paris is the capital of France.", 9⟩ : ScoredChunk)].map ScoredChunk.text)⟩,
       ⟨"user", "What is the capital of France?"⟩] ∧
    (chatRequestFor (create_system_prompt
        ([(⟨"Paris is the capital of France.", 9⟩ : ScoredChunk)].map ScoredChunk.text))
        "What is the capital of France?").temperature = 1/10 ∧
    (chatRequestFor (create_system_prompt
        ([(⟨"Paris is the capital of France.", 9⟩ : ScoredChunk)].map ScoredChunk.text))
        "What is the capital of France?").top_p = 1/10 ∧
    (chatRequestFor (create_system_prompt
        ([(⟨"Paris is the capital of France.", 9⟩ : ScoredChunk)].map ScoredChunk.text))
        "What is the capital of France?").model = "Llama-3.2-11B-Vision-Instruct" ∧
    RAGPipeline.generate_response ⟨some "rk", "sk"⟩ envC6
      (create_system_prompt
        ([(⟨"Paris is the capital of France.", 9⟩ : ScoredChunk)].map ScoredChunk.text))
      "What is the capital of France?" =
      (.ok (ChatChoice.mk ⟨"assistant", "The capital of France is Paris."⟩).message.content,
        [.chatCreate (chatRequestFor (create_system_prompt
          ([(⟨"Paris is the capital of France.", 9⟩ : ScoredChunk)].map ScoredChunk.text))
          "What is the capital of France?")]) ∧
    RAGPipeline.process_query ⟨some "rk", "sk"⟩ envC6 "What is the capital of France?" "tutorial" =
      (.ok (ChatChoice.mk ⟨"assistant", "The capital of France is Paris."⟩).message.content,
        [.retrievalPost ⟨"What is the capital of France?", "tutorial"⟩,
         .chatCreate (chatRequestFor (create_system_prompt
          ([(⟨"Paris is the capital of France.", 9⟩ : ScoredChunk)].map ScoredChunk.text))
          "What is the capital of France?")]) :=
  C6_generation_request_and_verbatim_answer ⟨some "rk", "sk"⟩ envC6
    "What is the capital of France?" "tutorial"
    [⟨"Paris is the capital of France.", 9⟩]
    ⟨⟨"assistant", "The capital of France is Paris."⟩⟩ []
    rfl rfl (by decide) rfl

/-- C7: when the process-wide Ragie credential is absent (None or empty),
pipeline construction fails immediately with the configuration error, and no
pipeline value is produced, so no pipeline operation can proceed; the
constructor performs no network call (it takes no environment). -/
theorem C7_missing_ragie_key_fails_construction (rk : Option String) (sk : String)
    (habs : rk = none ∨ rk = some "") :
    RAGPipeline.init rk sk = .error (.exception missingKeyMsg) ∧
      ∀ p : RAGPipeline, RAGPipeline.init rk sk ≠ .ok p := by
  have h : RAGPipeline.init rk sk = .error (.exception missingKeyMsg) := by
    rcases habs with rfl | rfl <;> rfl
  exact ⟨h, fun p hp => by rw [h] at hp; exact Except.noConfusion hp⟩

/-- C7, witness: construction with an absent Ragie key fails. -/
theorem C7_witness :
    RAGPipeline.init none "sk" = .error (.exception missingKeyMsg) ∧
      ∀ p : RAGPipeline, RAGPipeline.init none "sk" ≠ .ok p :=
  C7_missing_ragie_key_fails_construction none "sk" (Or.inl rfl)

/-- C8: on a successful retrieval response, a body lacking the
`scored_chunks` field makes `retrieve_chunks` fail with the `KeyError`
rather than return a value; when the field is present, the call returns
exactly the text field of each item in server-provided order. -/
theorem C8_scored_chunks_field (p : RAGPipeline) (env : Env) (query scope : String)
    (hok : (env.retrieval_post ⟨query, scope⟩).ok = true) :
    ((env.retrieval_post ⟨query, scope⟩).scored_chunks = none →
      p.retrieve_chunks env query scope =
        (.error (.keyError "scored_chunks"), [.retrievalPost ⟨query, scope⟩])) ∧
    (∀ cs, (env.retrieval_post ⟨query, scope⟩).scored_chunks = some cs →
      p.retrieve_chunks env query scope =
        (.ok (cs.map ScoredChunk.text), [.retrievalPost ⟨query, scope⟩])) := by
  constructor
  · intro hnone
    simp [RAGPipeline.retrieve_chunks, hok, hnone]
  · intro cs hcs
    simp [RAGPipeline.retrieve_chunks, hok, hcs]

/-- Environment used by the C8 witness: an ok response whose body lacks the
chunk-list field. -/
def envC8 : Env :=
  ⟨fun _ => ⟨true, 200, "OK", "{}"⟩, fun _ => ⟨true, 200, "OK", none⟩, fun _ => ⟨[]⟩⟩

/-- C8, witness: the malformed-response path on a concrete environment. -/
theorem C8_witness :
    ((envC8.retrieval_post ⟨"q", "tutorial"⟩).scored_chunks = none →
      RAGPipeline.retrieve_chunks ⟨some "rk", "sk"⟩ envC8 "q" "tutorial" =
        (.error (.keyError "scored_chunks"), [.retrievalPost ⟨"q", "tutorial"⟩])) ∧
    (∀ cs, (envC8.retrieval_post ⟨"q", "tutorial"⟩).scored_chunks = some cs →
      RAGPipeline.retrieve_chunks ⟨some "rk", "sk"⟩ envC8 "q" "tutorial" =
        (.ok (cs.map ScoredChunk.text), [.retrievalPost ⟨"q", "tutorial"⟩])) :=
  C8_scored_chunks_field ⟨some "rk", "sk"⟩ envC8 "q" "tutorial" rfl

/-- Environment used by the C9 counterexample: retrieval returns one chunk
and generation returns one candidate. -/
def envC9 : Env :=
  ⟨fun _ => ⟨true, 200, "OK", "{}"⟩,
    fun _ => ⟨true, 200, "OK", some [⟨"chunk text", 1⟩]⟩,
    fun _ => ⟨[⟨⟨"assistant", "answer"⟩⟩]⟩⟩

/-- C9, counterexample: the claimed invariant — no pipeline operation
executes unless both credentials are present — is false: a pipeline whose
SambaNova key is the empty string runs `process_query` to completion,
including the generation call. -/
theorem C9_counterexample :
    ¬ (∀ (p : RAGPipeline) (env : Env) (query scope : String),
        (p.process_query env query scope).2 = [] ∨
        (p.ragie_api_key ≠ none ∧ p.ragie_api_key ≠ some "" ∧ p.sambanova_api_key ≠ "")) := by
  intro h
  rcases h ⟨some "rk", ""⟩ envC9 "q" "tutorial" with h1 | h2
  · have h2 : (RAGPipeline.process_query ⟨some "rk", ""⟩ envC9 "q" "tutorial").2 =
        [.retrievalPost ⟨"q", "tutorial"⟩,
         .chatCreate (chatRequestFor (create_system_prompt ["chunk text"]) "q")] := rfl
    rw [h2] at h1
    exact List.noConfusion h1
  · exact h2.2.2 rfl

/-- C9 (amended): a successfully constructed pipeline always carries a
present, non-empty retrieval credential; the generation credential is not
checked by the pipeline (the caller is responsible for it). -/
theorem C9_constructed_pipeline_has_ragie_key (rk : Option String) (sk : String)
    (p : RAGPipeline) (h : RAGPipeline.init rk sk = .ok p) :
    ∃ k, p.ragie_api_key = some k ∧ k ≠ "" := by
  cases rk with
  | none => simp [RAGPipeline.init, pyFalsyOptStr] at h
  | some k =>
    by_cases hk : k = ""
    · subst hk
      simp [RAGPipeline.init, pyFalsyOptStr] at h
    · have hp : (⟨some k, sk⟩ : RAGPipeline) = p := by
        simpa [RAGPipeline.init, pyFalsyOptStr, hk] using h
      exact ⟨k, by rw [← hp], hk⟩

/-- C9, witness: the amended claim applied to a concretely constructed
pipeline. -/
theorem C9_witness :
    ∃ k, (⟨some "rk", "sk"⟩ : RAGPipeline).ragie_api_key = some k ∧ k ≠ "" :=
  C9_constructed_pipeline_has_ragie_key (some "rk") "sk" ⟨some "rk", "sk"⟩ rfl

/-- C10: an explicitly supplied empty-string name is treated exactly like an
omitted name by `upload_document` (Python `if not name` is true for both). -/
theorem C10_empty_name_like_omitted (p : RAGPipeline) (env : Env) (url mode : String) :
    p.upload_document env url (some "") mode = p.upload_document env url none mode := by
  unfold RAGPipeline.upload_document
  simp [resolvedName]

end RagApp
